import Mathlib

/-!
Verification of the session navigation engine of the zimbrowser repository
(`src/zim_browser.py` and the CLI tool `src/list_zim_articles.py`).

The Python code is shallowly embedded: the mutable widget/session state
becomes explicit record passing, the libzim archive handle becomes a
finite association list of entries together with a suggestion-stream
function, and every fallible external call becomes an `Option`.
-/

/-- One archive entry as seen through the external libzim capability:
a display title, an optional redirect target path, the payload (already
UTF-8 decoded with replacement, which never fails) and its mimetype. -/
structure EntryData where
  title : String
  redirect : Option String
  content : String
  mimetype : String
deriving DecidableEq, Repr

/-- The external world consumed by the browser: the archive
(`entries` keyed by path, mirroring `Archive.get_entry_by_path`), the
suggestion capability (`suggest pfx` is the full ordered result stream of
`SuggestionSearcher.suggest(pfx)`, of which `getResults(offset, limit)`
returns a window) and the external markdownify rendering collaborator. -/
structure World where
  entries : List (String × EntryData)
  suggest : String → List String
  toDisplayMarkup : String → String

/-- Models `Archive.get_entry_by_path(path)`: `none` models the raised
exception when the path has no entry.  The entry found at `path` carries
that path (`entry.path`). -/
def getEntryByPath (w : World) (path : String) : Option (String × EntryData) :=
  match w.entries.lookup path with
  | none => none
  | some d => some (path, d)

/-- Models `suggestion.getResults(offset, limit)` on the stream returned by
`suggest`; per the spec it may return fewer than `limit` paths, signaling
end of results. -/
def getResults (w : World) (pfx : String) (offset limit : Nat) : List String :=
  ((w.suggest pfx).drop offset).take limit

/-- The mutable pagination state of `Sidebar` (`src/zim_browser.py`):
`all_articles` is the loaded list of `(path, title)` pairs, `current_pfx`
models the `current_prefix` field. The `ListItem` widget mirror of
`all_articles` is presentation only and is not modelled. -/
structure SidebarState where
  all_articles : List (String × String)
  current_pfx : String
  current_offset : Nat
  batch_size : Nat
  has_more : Bool
deriving DecidableEq, Repr

/-- The loop body of `Sidebar._load_batch`: for one raw `path` from the
search results, try `get_entry_by_path`; on success append
`(path, entry.title or path)` and bump the success counter, on exception
drop the path silently. -/
def load_step (w : World) (acc : List (String × String) × Nat) (path : String) :
    List (String × String) × Nat :=
  match getEntryByPath w path with
  | some e => (acc.1 ++ [(path, if e.2.title = "" then path else e.2.title)], acc.2 + 1)
  | none => acc

/-- Models `Sidebar._load_batch(offset, limit, clear)`: fetch one window of
raw paths, resolve each, then set `current_offset = offset + count` and
`has_more = count >= limit`, where `count` is the number of paths that
resolved successfully. -/
def load_batch (w : World) (s : SidebarState) (offset limit : Nat) (clear : Bool) :
    SidebarState :=
  let results := getResults w s.current_pfx offset limit
  let start : List (String × String) := if clear then [] else s.all_articles
  let r := results.foldl (load_step w) (start, 0)
  { s with all_articles := r.1
           current_offset := offset + r.2
           has_more := decide (limit ≤ r.2) }

/-- Models `Sidebar.load_articles(pfx, limit)`: empty prefixes are replaced
by the default `"a"`, the pagination state is reset, and one batch is
loaded with `clear=True`. -/
def load_articles (w : World) (s : SidebarState) (pfx : String) (limit : Nat) :
    SidebarState :=
  let p := if pfx = "" then "a" else pfx
  let s := { s with current_pfx := p, current_offset := 0, batch_size := limit,
                    has_more := true }
  load_batch w s 0 limit true

/-- Models `Sidebar.load_more_articles`: a no-op unless `has_more`. -/
def load_more_articles (w : World) (s : SidebarState) : SidebarState :=
  if s.has_more then load_batch w s s.current_offset s.batch_size false else s

/-- The number of raw paths in a result window that resolve successfully
(the dropped-path failures are the `except: pass` in `_load_batch`). -/
def successCount (w : World) (paths : List String) : Nat :=
  paths.countP (fun p => (getEntryByPath w p).isSome)

theorem load_step_snd (w : World) (l : List String) :
    ∀ a n, (l.foldl (load_step w) (a, n)).2 = n + successCount w l := by
  induction l with
  | nil => intro a n; simp [successCount]
  | cons p t ih =>
    intro a n
    cases h : getEntryByPath w p with
    | none =>
      simp only [List.foldl_cons, load_step, h]
      rw [ih]
      simp [successCount, List.countP_cons, h]
    | some e =>
      simp only [List.foldl_cons, load_step, h]
      rw [ih]
      simp [successCount, List.countP_cons, h]
      omega

/-- The redirect chain following of the external libzim capability.
Modelled from the spec: `Entry.get_redirect_entry` is not part of this
repository; per spec section 4.3 the redirect chain is followed to the
final non-redirect entry, with no bound on the number of hops in the
source.  Here the hop count is capped by a fuel argument; exhausting it
(a looping chain) or a dangling target is the capability's error
(`RedirectError`), modelled as `none`. -/
def followRedirects (w : World) : Nat → (String × EntryData) → Option (String × EntryData)
  | 0, e =>
    match e.2.redirect with
    | none => some e
    | some _ => none
  | f + 1, e =>
    match e.2.redirect with
    | none => some e
    | some tgt =>
      match getEntryByPath w tgt with
      | none => none
      | some e2 => followRedirects w f e2

/-- Modelled from the spec: the external `entry.get_redirect_entry()` call,
following the whole chain (spec section 4.3), with the archive size as the
loop cap. -/
def get_redirect_entry (w : World) (e : String × EntryData) : Option (String × EntryData) :=
  followRedirects w w.entries.length e

/-- The cross-component session state of `ZimBrowser`: the history list of
`(path, title)` pairs with its cursor `history_index`, the current
article title and path, and the text last written to the content view
(the `sub_title` field mirrors `current_article` and is not modelled). -/
structure BrowserState where
  history : List (String × String)
  history_index : Int
  current_article : String
  current_article_path : String
  content : String
deriving DecidableEq, Repr

/-- The state built by `ZimBrowser.__init__`. -/
def initState : BrowserState :=
  { history := [], history_index := -1, current_article := ""
    current_article_path := "", content := "" }

/-- Models `ZimBrowser._add_to_history(path, title)`: truncate the forward
branch when the cursor is not at the tail, suppress a push equal to the
tail entry, otherwise append and move the cursor to the new tail.  (The
slice `history[:history_index + 1]` is modelled for `history_index ≥ -1`,
which holds in every reachable state.) -/
def add_to_history (s : BrowserState) (path title : String) : BrowserState :=
  let h := if s.history_index < (s.history.length : Int) - 1
           then s.history.take (s.history_index + 1).toNat
           else s.history
  if h.getLast? = some (path, title) then
    { s with history := h }
  else
    { s with history := h ++ [(path, title)], history_index := (h.length : Int) }

/-- The successful tail of a content load: update the content view with the
rendered payload and set the current title and path from the resolved
entry (the shared code at the end of `load_article` and
`_load_article_from_history`). -/
def render_entry (w : World) (s : BrowserState) (e : String × EntryData) (title : String) :
    BrowserState :=
  { s with content := w.toDisplayMarkup e.2.content
           current_article := title
           current_article_path := e.1 }

/-- The `f"# Error\n\nFailed to load article: {e}"` message; the appended
exception text is external detail and is not modelled. -/
def load_error_msg : String := "# Error\n\nFailed to load article: "

/-- The `f"# Error\n\nFailed to follow redirect: {e}"` message. -/
def redirect_error_msg : String := "# Error\n\nFailed to follow redirect: "

/-- Models `ZimBrowser.load_article(path, title)`.  Note that
`_add_to_history` runs first, before the entry lookup can fail; every
failure path only rewrites the content view. -/
def load_article (w : World) (s : BrowserState) (path title : String) : BrowserState :=
  let s := add_to_history s path title
  match getEntryByPath w path with
  | none => { s with content := load_error_msg }
  | some e =>
    if e.2.redirect.isSome then
      match get_redirect_entry w e with
      | none => { s with content := redirect_error_msg }
      | some e2 => render_entry w s e2 (if e2.2.title = "" then e2.1 else e2.2.title)
    else
      render_entry w s e title

/-- Models `ZimBrowser._load_article_from_history(path, title)`: like
`load_article` but with no history push; a failed redirect follow is
swallowed (`except: pass`) and the subsequent payload fetch on the
redirect entry then raises into the outer handler. -/
def load_article_from_history (w : World) (s : BrowserState) (path title : String) :
    BrowserState :=
  match getEntryByPath w path with
  | none => { s with content := load_error_msg }
  | some e =>
    if e.2.redirect.isSome then
      match get_redirect_entry w e with
      | none => { s with content := load_error_msg }
      | some e2 => render_entry w s e2 (if e2.2.title = "" then e2.1 else e2.2.title)
    else
      render_entry w s e title

/-- Models `ZimBrowser.action_history_back`: when the cursor is past the
oldest entry, decrement it and replay the entry now under it. -/
def action_history_back (w : World) (s : BrowserState) : BrowserState :=
  if 0 < s.history_index then
    match s.history[(s.history_index - 1).toNat]? with
    | some pt =>
      load_article_from_history w { s with history_index := s.history_index - 1 } pt.1 pt.2
    | none => { s with history_index := s.history_index - 1 }
  else s

/-- Models `ZimBrowser.action_history_forward`: when the cursor is before
the newest entry, increment it and replay the entry now under it. -/
def action_history_forward (w : World) (s : BrowserState) : BrowserState :=
  if s.history_index < (s.history.length : Int) - 1 then
    match s.history[(s.history_index + 1).toNat]? with
    | some pt =>
      load_article_from_history w { s with history_index := s.history_index + 1 } pt.1 pt.2
    | none => { s with history_index := s.history_index + 1 }
  else s

/-- A content load for `path` fails: either the path has no entry
(`get_entry_by_path` raises) or the entry is a redirect whose chain cannot
be followed. -/
def contentLoadFails (w : World) (path : String) : Bool :=
  match getEntryByPath w path with
  | none => true
  | some e => e.2.redirect.isSome && (get_redirect_entry w e).isNone

/-- A concrete archive world for evaluating the pager: the suggestion
stream always returns the two paths "a" and "b", of which only "a" has an
entry, so "b" is dropped during batch resolution. -/
def pagerWorld : World :=
  { entries := [("a", { title := "Alpha", redirect := none, content := "A",
                        mimetype := "text/html" })]
    suggest := fun _ => ["a", "b"]
    toDisplayMarkup := fun t => t }

/-- A pager state about to load a batch of 2 from offset 0. -/
def pagerState : SidebarState :=
  { all_articles := [], current_pfx := "x", current_offset := 0,
    batch_size := 2, has_more := true }

/-- C2 counterexample: with batch size 2 and one of the two returned raw
paths failing title resolution, the stored offset after the batch load is
1, not the previous offset plus the requested batch size (2). -/
theorem c2_offset_claim_counterexample :
    (load_more_articles pagerWorld pagerState).current_offset
      ≠ pagerState.current_offset + pagerState.batch_size := by decide

/-- C2 (amended): after `Sidebar._load_batch(offset, limit)`, the stored
offset equals the offset argument plus the number of returned raw paths
that resolved successfully; dropped paths are not counted, so the offset
advances by the success count, not by the request size. -/
theorem c2_offset_advances_by_success_count (w : World) (s : SidebarState)
    (offset limit : Nat) (clear : Bool) :
    (load_batch w s offset limit clear).current_offset
      = offset + successCount w (getResults w s.current_pfx offset limit) := by
  simp [load_batch, load_step_snd]

/-- C3 counterexample: the underlying search returns a full batch of raw
paths (2 of 2), yet `has_more` becomes false because one path failed
individual resolution and only the success count is compared against the
batch size. -/
theorem c3_hasmore_claim_counterexample :
    ¬ (((load_more_articles pagerWorld pagerState).has_more = false)
        ↔ (getResults pagerWorld pagerState.current_pfx pagerState.current_offset
            pagerState.batch_size).length < pagerState.batch_size) := by decide

/-- C3 (amended): after `Sidebar._load_batch(offset, limit)`, `has_more`
is false if and only if the number of returned raw paths that resolved
successfully is smaller than the batch size requested; paths dropped by a
failed resolution count against continuing. -/
theorem c3_hasmore_iff_success_count_lt (w : World) (s : SidebarState)
    (offset limit : Nat) (clear : Bool) :
    ((load_batch w s offset limit clear).has_more = false)
      ↔ successCount w (getResults w s.current_pfx offset limit) < limit := by
  simp [load_batch, load_step_snd]

/-- The history invariant: the cursor lies between -1 and the last index,
it is -1 exactly when the history is empty, and no two adjacent entries
are equal as `(path, title)` pairs. -/
def HistoryInv (s : BrowserState) : Prop :=
  -1 ≤ s.history_index ∧ s.history_index < (s.history.length : Int) ∧
  (s.history_index = -1 ↔ s.history = []) ∧
  List.Chain' (fun a b => a ≠ b) s.history

/-- The states reachable from the freshly constructed browser by any
sequence of history pushes (`_add_to_history`), `action_history_back` and
`action_history_forward` steps, against arbitrary archives. -/
inductive Reachable : BrowserState → Prop where
  | init : Reachable initState
  | push (s : BrowserState) (path title : String) :
      Reachable s → Reachable (add_to_history s path title)
  | back (w : World) (s : BrowserState) :
      Reachable s → Reachable (action_history_back w s)
  | forward (w : World) (s : BrowserState) :
      Reachable s → Reachable (action_history_forward w s)

theorem load_from_history_frame (w : World) (s : BrowserState) (p t : String) :
    (load_article_from_history w s p t).history = s.history ∧
    (load_article_from_history w s p t).history_index = s.history_index := by
  unfold load_article_from_history
  cases getEntryByPath w p with
  | none => exact ⟨rfl, rfl⟩
  | some e =>
    by_cases hr : e.2.redirect.isSome
    · simp only [hr, if_true]
      cases get_redirect_entry w e <;> exact ⟨rfl, rfl⟩
    · simp only [hr, if_false]
      exact ⟨rfl, rfl⟩

theorem historyInv_congr (s1 s2 : BrowserState) (e1 : s2.history = s1.history)
    (e2 : s2.history_index = s1.history_index) (h : HistoryInv s1) : HistoryInv s2 := by
  obtain ⟨a, b, c, d⟩ := h
  exact ⟨by rw [e2]; exact a, by rw [e2, e1]; exact b,
         by rw [e2, e1]; exact c, by rw [e1]; exact d⟩

theorem add_to_history_inv (s : BrowserState) (p t : String) (hI : HistoryInv s) :
    HistoryInv (add_to_history s p t) := by
  obtain ⟨h1, h2, h3, h4⟩ := hI
  have hlen0 : s.history = [] ↔ s.history.length = 0 := by
    simp [List.length_eq_zero]
  unfold add_to_history HistoryInv
  by_cases hc : s.history_index < (s.history.length : Int) - 1
  · rw [if_pos hc]
    have htake : (s.history.take (s.history_index + 1).toNat).length
        = min (s.history_index + 1).toNat s.history.length := List.length_take _ _
    have hch : List.Chain' (fun a b => a ≠ b)
        (s.history.take (s.history_index + 1).toNat) := by
      conv at h4 =>
        rw [← List.take_append_drop (s.history_index + 1).toNat s.history]
      exact (List.chain'_append.mp h4).1
    by_cases hd : (s.history.take (s.history_index + 1).toNat).getLast? = some (p, t)
    · rw [if_pos hd]
      refine ⟨h1, by simp only []; omega, ?_, hch⟩
      constructor
      · intro hi
        have hi2 : s.history_index = -1 := hi
        have h0 : (s.history_index + 1).toNat = 0 := by omega
        show s.history.take (s.history_index + 1).toNat = []
        rw [h0, List.take_zero]
      · intro hnil
        have hnil2 : s.history.take (s.history_index + 1).toNat = [] := hnil
        rw [hnil2] at hd
        simp at hd
    · rw [if_neg hd]
      refine ⟨by simp only []; omega, ?_, ?_, ?_⟩
      · simp only [List.length_append, List.length_cons, List.length_nil]
        omega
      · refine iff_of_false (by simp only []; omega) ?_
        simp
      · rw [List.chain'_append]
        refine ⟨hch, List.chain'_singleton _, ?_⟩
        intro a ha b hb
        simp only [List.head?_cons, Option.mem_def, Option.some.injEq] at hb
        subst hb
        intro hab
        exact hd (by rw [← hab]; exact ha)
  · rw [if_neg hc]
    by_cases hd : s.history.getLast? = some (p, t)
    · rw [if_pos hd]
      exact ⟨h1, h2, h3, h4⟩
    · rw [if_neg hd]
      refine ⟨by simp only []; omega, ?_, ?_, ?_⟩
      · simp only [List.length_append, List.length_cons, List.length_nil]
        omega
      · refine iff_of_false (by simp only []; omega) ?_
        simp
      · rw [List.chain'_append]
        refine ⟨h4, List.chain'_singleton _, ?_⟩
        intro a ha b hb
        simp only [List.head?_cons, Option.mem_def, Option.some.injEq] at hb
        subst hb
        intro hab
        exact hd (by rw [← hab]; exact ha)

theorem action_history_back_inv (w : World) (s : BrowserState) (hI : HistoryInv s) :
    HistoryInv (action_history_back w s) := by
  obtain ⟨h1, h2, h3, h4⟩ := hI
  unfold action_history_back
  by_cases hc : 0 < s.history_index
  · rw [if_pos hc]
    have hne : s.history ≠ [] := by
      intro hnil
      rw [hnil] at h2
      simp at h2
      omega
    have hinv2 : HistoryInv { s with history_index := s.history_index - 1 } :=
      ⟨by simp only []; omega, by simp only []; omega,
       iff_of_false (by simp only []; omega) hne, h4⟩
    cases hget : s.history[(s.history_index - 1).toNat]? with
    | some pt =>
      have frame := load_from_history_frame w
        { s with history_index := s.history_index - 1 } pt.1 pt.2
      exact historyInv_congr _ _ frame.1 frame.2 hinv2
    | none =>
      exact hinv2
  · rw [if_neg hc]
    exact ⟨h1, h2, h3, h4⟩

theorem action_history_forward_inv (w : World) (s : BrowserState) (hI : HistoryInv s) :
    HistoryInv (action_history_forward w s) := by
  obtain ⟨h1, h2, h3, h4⟩ := hI
  unfold action_history_forward
  by_cases hc : s.history_index < (s.history.length : Int) - 1
  · rw [if_pos hc]
    have hne : s.history ≠ [] := by
      intro hnil
      rw [hnil] at hc
      simp at hc
      omega
    have hinv2 : HistoryInv { s with history_index := s.history_index + 1 } :=
      ⟨by simp only []; omega, by simp only []; omega,
       iff_of_false (by simp only []; omega) hne, h4⟩
    cases hget : s.history[(s.history_index + 1).toNat]? with
    | some pt =>
      have frame := load_from_history_frame w
        { s with history_index := s.history_index + 1 } pt.1 pt.2
      exact historyInv_congr _ _ frame.1 frame.2 hinv2
    | none =>
      exact hinv2
  · rw [if_neg hc]
    exact ⟨h1, h2, h3, h4⟩

/-- C5: the history invariant (-1 <= cursor < length, cursor = -1 exactly
on an empty history, no two adjacent entries equal) holds in every state
reachable from the empty history by any sequence of push, back and
forward operations. -/
theorem c5_history_invariant_reachable (s : BrowserState) (h : Reachable s) :
    HistoryInv s := by
  induction h with
  | init =>
    refine ⟨by norm_num [initState], by norm_num [initState], ?_, ?_⟩
    · simp [initState]
    · simp [initState]
  | push s p t _ ih => exact add_to_history_inv s p t ih
  | back w s _ ih => exact action_history_back_inv w s ih
  | forward w s _ ih => exact action_history_forward_inv w s ih

/-- C5 witness: the invariant instantiated at the concrete state reached
by pushing two entries and stepping back once. -/
theorem c5_history_invariant_reachable_witness :
    HistoryInv (action_history_back pagerWorld
      (add_to_history (add_to_history initState "A" "ta") "B" "tb")) :=
  c5_history_invariant_reachable _
    (Reachable.back pagerWorld _
      (Reachable.push _ "B" "tb" (Reachable.push _ "A" "ta" Reachable.init)))

/-- C6: `action_history_back` and `action_history_forward` leave the
entries sequence itself completely unchanged; only the cursor changes,
and only by one step within bounds (decrement only when the cursor is
past the oldest entry, increment only when it is before the newest). -/
theorem c6_back_forward_frame (w : World) (s : BrowserState) :
    (action_history_back w s).history = s.history ∧
    (action_history_forward w s).history = s.history ∧
    (action_history_back w s).history_index
      = (if 0 < s.history_index then s.history_index - 1 else s.history_index) ∧
    (action_history_forward w s).history_index
      = (if s.history_index < (s.history.length : Int) - 1 then s.history_index + 1
         else s.history_index) := by
  refine ⟨?_, ?_, ?_, ?_⟩
  · unfold action_history_back
    by_cases hc : 0 < s.history_index
    · rw [if_pos hc]
      cases hget : s.history[(s.history_index - 1).toNat]? with
      | some pt => exact (load_from_history_frame w _ pt.1 pt.2).1
      | none => rfl
    · rw [if_neg hc]
  · unfold action_history_forward
    by_cases hc : s.history_index < (s.history.length : Int) - 1
    · rw [if_pos hc]
      cases hget : s.history[(s.history_index + 1).toNat]? with
      | some pt => exact (load_from_history_frame w _ pt.1 pt.2).1
      | none => rfl
    · rw [if_neg hc]
  · unfold action_history_back
    by_cases hc : 0 < s.history_index
    · rw [if_pos hc, if_pos hc]
      cases hget : s.history[(s.history_index - 1).toNat]? with
      | some pt => exact (load_from_history_frame w _ pt.1 pt.2).2
      | none => rfl
    · rw [if_neg hc, if_neg hc]
  · unfold action_history_forward
    by_cases hc : s.history_index < (s.history.length : Int) - 1
    · rw [if_pos hc, if_pos hc]
      cases hget : s.history[(s.history_index + 1).toNat]? with
      | some pt => exact (load_from_history_frame w _ pt.1 pt.2).2
      | none => rfl
    · rw [if_neg hc, if_neg hc]

/-- A world whose archive has no entries at all: every lookup fails. -/
def emptyWorld : World :=
  { entries := [], suggest := fun _ => [], toDisplayMarkup := fun t => t }

/-- C1 counterexample: loading a path that has no entry is a failed
navigation, yet the history state changes: the requested entry was
pushed before the load was attempted, so the claimed equality of the
history before and after fails. -/
theorem c1_failed_navigation_claim_counterexample :
    (getEntryByPath emptyWorld "Missing").isNone = true ∧
    (load_article emptyWorld initState "Missing" "T").history ≠ initState.history := by
  decide

theorem add_to_history_current (s : BrowserState) (p t : String) :
    (add_to_history s p t).current_article = s.current_article ∧
    (add_to_history s p t).current_article_path = s.current_article_path := by
  unfold add_to_history
  by_cases hc : s.history_index < (s.history.length : Int) - 1 <;>
    simp only [hc, if_true, if_false] <;> split <;> exact ⟨rfl, rfl⟩

/-- C1 (amended): on a failed content load (missing entry or failed
redirect chain) the current article fields are unchanged and the
pagination state — a separate `SidebarState` that `load_article` never
reads or writes — is trivially unchanged, but the history is updated
exactly as on a successful load: `_add_to_history` pushed the requested
`(path, title)` pair before the load was attempted, and only the content
view then shows the error. -/
theorem c1_failed_navigation_state (w : World) (s : BrowserState) (p t : String)
    (hfail : contentLoadFails w p = true) :
    (load_article w s p t).history = (add_to_history s p t).history ∧
    (load_article w s p t).history_index = (add_to_history s p t).history_index ∧
    (load_article w s p t).current_article = s.current_article ∧
    (load_article w s p t).current_article_path = s.current_article_path := by
  have hcur := add_to_history_current s p t
  unfold load_article
  unfold contentLoadFails at hfail
  cases hl : getEntryByPath w p with
  | none =>
    exact ⟨rfl, rfl, hcur.1, hcur.2⟩
  | some e =>
    rw [hl] at hfail
    have hfail2 : (e.2.redirect.isSome && (get_redirect_entry w e).isNone) = true := hfail
    simp only [Bool.and_eq_true] at hfail2
    obtain ⟨hr, hn⟩ := hfail2
    rw [Option.isNone_iff_eq_none] at hn
    simp only [hr, hn, if_true]
    exact ⟨trivial, trivial, hcur.1, hcur.2⟩

/-- C1 witness: the amended statement at the concrete failed navigation of
the counterexample. -/
theorem c1_failed_navigation_state_witness :
    contentLoadFails emptyWorld "Missing" = true ∧
    ((load_article emptyWorld initState "Missing" "T").history
       = (add_to_history initState "Missing" "T").history ∧
     (load_article emptyWorld initState "Missing" "T").history_index
       = (add_to_history initState "Missing" "T").history_index ∧
     (load_article emptyWorld initState "Missing" "T").current_article
       = initState.current_article ∧
     (load_article emptyWorld initState "Missing" "T").current_article_path
       = initState.current_article_path) :=
  ⟨by decide, c1_failed_navigation_state emptyWorld initState "Missing" "T" (by decide)⟩

theorem getEntryByPath_eq (w : World) (p : String) (e : String × EntryData)
    (h : getEntryByPath w p = some e) :
    e.1 = p ∧ w.entries.lookup p = some e.2 := by
  unfold getEntryByPath at h
  cases hl : w.entries.lookup p with
  | none => rw [hl] at h; cases h
  | some d =>
    rw [hl] at h
    cases h
    exact ⟨rfl, rfl⟩

theorem lookup_mem {l : List (String × EntryData)} {a : String} {b : EntryData}
    (h : l.lookup a = some b) : (a, b) ∈ l := by
  obtain ⟨l1, l2, hl, -⟩ := List.lookup_eq_some_iff.mp h
  rw [hl]
  simp

theorem followRedirects_done (w : World) (fuel : Nat) (e : String × EntryData)
    (h : e.2.redirect = none) : followRedirects w fuel e = some e := by
  cases fuel <;> simp only [followRedirects, h]

theorem followRedirects_hop (w : World) (f : Nat) (p tgt : String) (d : EntryData)
    (hd : d.redirect = some tgt) (e2 : String × EntryData)
    (hl : getEntryByPath w tgt = some e2) :
    followRedirects w (f + 1) (p, d) = followRedirects w f e2 := by
  simp only [followRedirects, hd, hl]

theorem followRedirects_spec (w : World) (fuel : Nat) :
    ∀ e r : String × EntryData, followRedirects w fuel e = some r →
      r.2.redirect = none ∧ (r = e ∨ getEntryByPath w r.1 = some r) := by
  induction fuel with
  | zero =>
    intro e r h
    unfold followRedirects at h
    cases hre : e.2.redirect with
    | none =>
      rw [hre] at h
      cases h
      exact ⟨hre, Or.inl rfl⟩
    | some tgt =>
      rw [hre] at h
      cases h
  | succ f ih =>
    intro e r h
    unfold followRedirects at h
    cases hre : e.2.redirect with
    | none =>
      rw [hre] at h
      cases h
      exact ⟨hre, Or.inl rfl⟩
    | some tgt =>
      rw [hre] at h
      have h2 : (match getEntryByPath w tgt with
                 | none => none
                 | some e2 => followRedirects w f e2) = some r := h
      cases hl : getEntryByPath w tgt with
      | none => rw [hl] at h2; cases h2
      | some e2 =>
        rw [hl] at h2
        obtain ⟨hrn, hor⟩ := ih e2 r h2
        refine ⟨hrn, Or.inr ?_⟩
        cases hor with
        | inl he =>
          obtain ⟨hfst, -⟩ := getEntryByPath_eq w tgt e2 hl
          rw [he, hfst]
          exact hl
        | inr hx => exact hx

theorem get_redirect_entry_spec (w : World) (e r : String × EntryData)
    (h : get_redirect_entry w e = some r) (hr : e.2.redirect.isSome = true) :
    r.2.redirect = none ∧ getEntryByPath w r.1 = some r := by
  obtain ⟨h1, h2⟩ := followRedirects_spec w w.entries.length e r h
  refine ⟨h1, ?_⟩
  cases h2 with
  | inl he =>
    exfalso
    rw [he] at h1
    rw [h1] at hr
    cases hr
  | inr hx => exact hx

/-- C4: loading a path whose entry is the start of a chain of 3 redirects
renders the final target entry's content and adopts the final entry's
(nonempty) title and its path — not the original entry's title and not an
intermediate one. -/
theorem c4_redirect_chain_resolves_final (w : World) (s : BrowserState)
    (p p1 p2 p3 t : String) (d0 d1 d2 d3 : EntryData)
    (h0 : getEntryByPath w p = some (p, d0)) (hr0 : d0.redirect = some p1)
    (h1 : getEntryByPath w p1 = some (p1, d1)) (hr1 : d1.redirect = some p2)
    (h2 : getEntryByPath w p2 = some (p2, d2)) (hr2 : d2.redirect = some p3)
    (h3 : getEntryByPath w p3 = some (p3, d3)) (hr3 : d3.redirect = none)
    (ht : d3.title ≠ "") :
    (load_article w s p t).current_article = d3.title ∧
    (load_article w s p t).content = w.toDisplayMarkup d3.content ∧
    (load_article w s p t).current_article_path = p3 := by
  have dne : ∀ (a b : String) (x y : EntryData), getEntryByPath w a = some (a, x) →
      getEntryByPath w b = some (b, y) → a = b → x = y := by
    intro a b x y hx hy he
    subst he
    rw [hx] at hy
    exact congrArg Prod.snd (Option.some.inj hy)
  have ne23 : p2 ≠ p3 := by
    intro he
    have hd := dne p2 p3 d2 d3 h2 h3 he
    rw [hd, hr3] at hr2
    cases hr2
  have ne13 : p1 ≠ p3 := by
    intro he
    have hd := dne p1 p3 d1 d3 h1 h3 he
    rw [hd, hr3] at hr1
    cases hr1
  have ne12 : p1 ≠ p2 := by
    intro he
    have hd := dne p1 p2 d1 d2 h1 h2 he
    rw [hd, hr2] at hr1
    exact ne23 (Option.some.inj hr1).symm
  have m1 : (p1, d1) ∈ w.entries := lookup_mem (getEntryByPath_eq w p1 _ h1).2
  have m2 : (p2, d2) ∈ w.entries := lookup_mem (getEntryByPath_eq w p2 _ h2).2
  have m3 : (p3, d3) ∈ w.entries := lookup_mem (getEntryByPath_eq w p3 _ h3).2
  have hsub : [(p1, d1), (p2, d2), (p3, d3)] ⊆ w.entries := by
    intro x hx
    simp only [List.mem_cons, List.not_mem_nil, or_false] at hx
    rcases hx with rfl | rfl | rfl
    · exact m1
    · exact m2
    · exact m3
  have nodup3 : ([(p1, d1), (p2, d2), (p3, d3)] : List (String × EntryData)).Nodup := by
    rw [List.nodup_cons, List.nodup_cons]
    refine ⟨?_, ?_, List.nodup_singleton _⟩
    · intro hmem
      rcases List.mem_cons.mp hmem with he | hmem2
      · exact ne12 (congrArg Prod.fst he)
      · have he := List.mem_singleton.mp hmem2
        exact ne13 (congrArg Prod.fst he)
    · intro hmem
      have he := List.mem_singleton.mp hmem
      exact ne23 (congrArg Prod.fst he)
  have hlen : 3 ≤ w.entries.length := by
    have hsp := List.subperm_of_subset nodup3 hsub
    simpa using hsp.length_le
  obtain ⟨k, hk⟩ : ∃ k, w.entries.length = k + 3 := ⟨w.entries.length - 3, by omega⟩
  have hfollow : get_redirect_entry w (p, d0) = some (p3, d3) := by
    unfold get_redirect_entry
    rw [hk]
    rw [show k + 3 = (k + 2) + 1 from rfl,
        followRedirects_hop w (k + 2) p p1 d0 hr0 (p1, d1) h1,
        show k + 2 = (k + 1) + 1 from rfl,
        followRedirects_hop w (k + 1) p1 p2 d1 hr1 (p2, d2) h2,
        followRedirects_hop w k p2 p3 d2 hr2 (p3, d3) h3,
        followRedirects_done w k (p3, d3) hr3]
  unfold load_article
  rw [h0]
  simp only [hr0, Option.isSome_some, if_true, hfollow, render_entry, if_neg ht]
  exact ⟨trivial, trivial, trivial⟩

/-- A concrete archive holding the redirect chain A -> B -> C -> D, where
D is the final content entry. -/
def chainWorld : World :=
  { entries := [("A", { title := "tA", redirect := some "B", content := "",
                        mimetype := "text/html" }),
                ("B", { title := "tB", redirect := some "C", content := "",
                        mimetype := "text/html" }),
                ("C", { title := "tC", redirect := some "D", content := "",
                        mimetype := "text/html" }),
                ("D", { title := "tD", redirect := none, content := "payload",
                        mimetype := "text/html" })]
    suggest := fun _ => []
    toDisplayMarkup := fun t => t }

/-- C4 witness: the chain A -> B -> C -> D loaded at A yields title tD,
the rendered payload of D and current path D. -/
theorem c4_redirect_chain_resolves_final_witness :
    (load_article chainWorld initState "A" "tA").current_article = "tD" ∧
    (load_article chainWorld initState "A" "tA").content
      = chainWorld.toDisplayMarkup "payload" ∧
    (load_article chainWorld initState "A" "tA").current_article_path = "D" :=
  c4_redirect_chain_resolves_final chainWorld initState "A" "B" "C" "D" "tA"
    { title := "tA", redirect := some "B", content := "", mimetype := "text/html" }
    { title := "tB", redirect := some "C", content := "", mimetype := "text/html" }
    { title := "tC", redirect := some "D", content := "", mimetype := "text/html" }
    { title := "tD", redirect := none, content := "payload", mimetype := "text/html" }
    (by decide) (by decide) (by decide) (by decide) (by decide) (by decide)
    (by decide) (by decide) (by decide)

theorem add_to_history_getLast (s : BrowserState) (p t : String) :
    (add_to_history s p t).history.getLast? = some (p, t) := by
  unfold add_to_history
  by_cases hc : s.history_index < (s.history.length : Int) - 1 <;>
    simp only [hc, if_true, if_false] <;> split
  · next h => exact h
  · next h => exact List.getLast?_concat _
  · next h => exact h
  · next h => exact List.getLast?_concat _

/-- C10: a successful load of a path `p` whose entry is a redirect records
the originally requested `(p, title)` pair at the history tail, while the
session's current path becomes the redirect target's path, which differs
from `p`; replaying the recorded history entry re-resolves the redirect to
the same target path. -/
theorem c10_redirected_load_history (w : World) (s : BrowserState) (p t : String)
    (e e2 : String × EntryData)
    (hl : getEntryByPath w p = some e) (hr : e.2.redirect.isSome = true)
    (hf : get_redirect_entry w e = some e2) :
    (load_article w s p t).history.getLast? = some (p, t) ∧
    (load_article w s p t).current_article_path = e2.1 ∧
    e2.1 ≠ p ∧
    (load_article_from_history w (load_article w s p t) p t).current_article_path
      = e2.1 := by
  have htl := add_to_history_getLast s p t
  obtain ⟨hrn, hself⟩ := get_redirect_entry_spec w e e2 hf hr
  have hne : e2.1 ≠ p := by
    intro he
    rw [he, hl] at hself
    have heq : e = e2 := Option.some.inj hself
    rw [← heq] at hrn
    rw [hrn] at hr
    cases hr
  have hmain : load_article w s p t
      = render_entry w (add_to_history s p t) e2
          (if e2.2.title = "" then e2.1 else e2.2.title) := by
    unfold load_article
    rw [hl]
    simp only [hr, if_true, hf]
  refine ⟨?_, ?_, hne, ?_⟩
  · rw [hmain]
    exact htl
  · rw [hmain]
    rfl
  · unfold load_article_from_history
    rw [hl]
    simp only [hr, if_true, hf]
    rfl

/-- C10 witness: loading the head A of the chain A -> B -> C -> D leaves
(A, tA) at the history tail while the current path becomes D, and the
replay resolves to D again. -/
theorem c10_redirected_load_history_witness :
    (load_article chainWorld initState "A" "tA").history.getLast? = some ("A", "tA") ∧
    (load_article chainWorld initState "A" "tA").current_article_path = "D" ∧
    ("D" : String) ≠ "A" ∧
    (load_article_from_history chainWorld
      (load_article chainWorld initState "A" "tA") "A" "tA").current_article_path
      = "D" :=
  c10_redirected_load_history chainWorld initState "A" "tA"
    ("A", { title := "tA", redirect := some "B", content := "", mimetype := "text/html" })
    ("D", { title := "tD", redirect := none, content := "payload", mimetype := "text/html" })
    (by decide) (by decide) (by decide)

/-- Models Python `s.startswith(pre)`. -/
def pyStartswith (s pre : String) : Bool := pre.data.isPrefixOf s.data

/-- Models Python `s.lstrip(c)` with a one-character strip set: remove
every leading occurrence of `c`. -/
def pyLstrip (s : String) (c : Char) : String := ⟨s.data.dropWhile (fun x => x == c)⟩

/-- Models Python `c in s` for a one-character needle. -/
def pyContains (s : String) (c : Char) : Bool := s.data.contains c

/-- Models Python `s.split(c)[0]`: the characters before the first `c`. -/
def pySplitFirst (s : String) (c : Char) : String := ⟨s.data.takeWhile (fun x => x != c)⟩

/-- Hex digit test for percent-decoding. -/
def pyIsHex (c : Char) : Bool :=
  c.isDigit || ('a' ≤ c && c ≤ 'f') || ('A' ≤ c && c ≤ 'F')

/-- Value of a hex digit. -/
def hexVal (c : Char) : Nat :=
  if c.isDigit then c.toNat - 48
  else if 'a' ≤ c && c ≤ 'f' then c.toNat - 87
  else c.toNat - 55

/-- Character-level percent-decoding: a `%XY` with two hex digits decodes
to the character with code `16*X+Y`; anything else is copied unchanged. -/
def unquoteChars : List Char → List Char
  | [] => []
  | '%' :: a :: b :: rest2 =>
    if pyIsHex a && pyIsHex b then
      Char.ofNat (16 * hexVal a + hexVal b) :: unquoteChars rest2
    else '%' :: unquoteChars (a :: b :: rest2)
  | c :: rest => c :: unquoteChars rest

/-- Models `urllib.parse.unquote` closely enough for archive hrefs;
multi-byte UTF-8 percent sequences decode byte by byte here, which no
claim exercises. -/
def pyUnquote (s : String) : String := ⟨unquoteChars s.data⟩

/-- Models `posixpath.dirname`: everything up to the last slash, with
trailing slashes stripped unless the head is all slashes. -/
def posixDirname (p : String) : String :=
  let head := (p.data.reverse.dropWhile (fun c => c != '/')).reverse
  if !head.isEmpty && head.any (fun c => c != '/') then
    ⟨(head.reverse.dropWhile (fun c => c == '/')).reverse⟩
  else ⟨head⟩

/-- Models the two-argument `posixpath.join(a, b)`. -/
def posixJoin (a b : String) : String :=
  if pyStartswith b "/" then b
  else if a = "" ∨ a.data.getLast? = some '/' then a ++ b
  else a ++ "/" ++ b

/-- Models `posixpath.normpath`: collapse empty and `.` components and
resolve `..` against the stack, preserving the leading-slash count. -/
def posixNormpath (p : String) : String :=
  if p = "" then "."
  else
    let slashes : Nat :=
      if pyStartswith p "/" then
        if pyStartswith p "//" && !(pyStartswith p "///") then 2 else 1
      else 0
    let comps := p.splitOn "/"
    let newComps := comps.foldl
      (fun acc comp =>
        if comp = "" ∨ comp = "." then acc
        else if comp ≠ ".." ∨ (slashes = 0 ∧ acc = []) ∨ acc.getLast? = some ".." then
          acc ++ [comp]
        else if acc ≠ [] then acc.dropLast
        else acc) []
    let joined := String.intercalate "/" newComps
    let out : String := ⟨List.replicate slashes '/' ++ joined.data⟩
    if out = "" then "." else out

/-- The error rendered for a relative link with no current article. -/
def relative_link_error (href : String) : String :=
  "# Error\n\nCannot resolve relative link without a current article: `" ++ href ++ "`"

/-- The `# Not Found` message for a link target with no entry. -/
def not_found_error (path : String) : String :=
  "# Not Found\n\nArticle not found: `" ++ path ++ "`"

/-- Steps 2-5 of link normalization in `on_markdown_link_clicked`: strip
leading slashes, percent-decode, drop the query, drop the fragment. -/
def normalizeHref (href : String) : String :=
  let path := pyLstrip href '/'
  let path := pyUnquote path
  let path := if pyContains path '?' then pySplitFirst path '?' else path
  if pyContains path '#' then pySplitFirst path '#' else path

/-- The final `try` of `on_markdown_link_clicked`: look up the link target
and load it with `entry.title or path`, or render `# Not Found`. -/
def try_load_clicked (w : World) (s : BrowserState) (path : String) : BrowserState :=
  match getEntryByPath w path with
  | some e => load_article w s path (if e.2.title = "" then path else e.2.title)
  | none => { s with content := not_found_error path }

/-- Models `ZimBrowser.on_markdown_link_clicked` for one `href`: external
links are handed to the web browser (no session state change), otherwise
the href is normalized and loaded; relative results require a current
article whose directory they are resolved against. -/
def on_markdown_link_clicked (w : World) (s : BrowserState) (href : String) :
    BrowserState :=
  if pyStartswith href "http://" || pyStartswith href "https://"
      || pyStartswith href "//" then
    s
  else
    let path := normalizeHref href
    if pyStartswith path "../" || pyStartswith path "./" then
      if s.current_article_path = "" then
        { s with content := relative_link_error href }
      else
        try_load_clicked w s
          (posixNormpath (posixJoin (posixDirname s.current_article_path) path))
    else
      try_load_clicked w s path

/-- C7 counterexample: the protocol-relative href `//../c.html` normalizes
(slash-strip, decode, query/fragment removal) to `../c.html` and there is
no current article, yet the handler classifies it External first: the
state is unchanged (the link is opened outside the app) and no
required-current-entry error is reported. -/
theorem c7_relative_link_claim_counterexample :
    pyStartswith (normalizeHref "//../c.html") "../" = true ∧
    initState.current_article_path = "" ∧
    on_markdown_link_clicked emptyWorld initState "//../c.html" = initState ∧
    initState.content ≠ relative_link_error "//../c.html" := by decide

/-- C7 (amended): for every href that is not classified External (it does
not start with `http://`, `https://` or `//`) and whose normalized form
begins with `../` or `./`, when there is no currently loaded article the
handler only renders the required-current-entry error message: it never
resolves against a guessed base and never navigates, leaving every other
state field unchanged. -/
theorem c7_relative_link_without_current (w : World) (s : BrowserState) (href : String)
    (hx1 : pyStartswith href "http://" = false)
    (hx2 : pyStartswith href "https://" = false)
    (hx3 : pyStartswith href "//" = false)
    (hrel : pyStartswith (normalizeHref href) "../" = true ∨
            pyStartswith (normalizeHref href) "./" = true)
    (hcur : s.current_article_path = "") :
    on_markdown_link_clicked w s href
      = { s with content := relative_link_error href } := by
  have hrel2 : (pyStartswith (normalizeHref href) "../"
      || pyStartswith (normalizeHref href) "./") = true := by
    rcases hrel with h | h <;> simp [h]
  unfold on_markdown_link_clicked
  simp only [hx1, hx2, hx3, hrel2, hcur, Bool.false_or, Bool.or_false,
             Bool.or_self, if_false, if_true]
  rfl

/-- C7 witness: the amended statement at `../c.html` with no current
article. -/
theorem c7_relative_link_without_current_witness :
    pyStartswith "../c.html" "//" = false ∧
    pyStartswith (normalizeHref "../c.html") "../" = true ∧
    on_markdown_link_clicked emptyWorld initState "../c.html"
      = { initState with content := relative_link_error "../c.html" } :=
  ⟨by decide, by decide,
   c7_relative_link_without_current emptyWorld initState "../c.html"
     (by decide) (by decide) (by decide) (Or.inl (by decide)) (by decide)⟩

/-- Follows the spec's words (normalization step 2): strip a single
leading path separator if present. -/
def stripOneLeadingSlash (s : String) : String :=
  if pyStartswith s "/" then ⟨s.data.drop 1⟩ else s

/-- C8: for every href that is not classified External, the
slash-stripping step `href.lstrip("/")` agrees with stripping a single
leading separator: a second leading slash would have made the href
protocol-relative and hence External. -/
theorem c8_lstrip_single_slash (href : String)
    (hx : pyStartswith href "//" = false) :
    pyLstrip href '/' = stripOneLeadingSlash href := by
  obtain ⟨l⟩ := href
  cases l with
  | nil => rfl
  | cons c rest =>
    by_cases hc : c = '/'
    · subst hc
      cases rest with
      | nil => rfl
      | cons d rest2 =>
        have hd : ¬ d = '/' := by
          intro he
          subst he
          simp [pyStartswith, List.isPrefixOf] at hx
        simp [pyLstrip, stripOneLeadingSlash, pyStartswith, List.isPrefixOf,
              List.dropWhile_cons, hd]
    · have hc2 : ¬ ('/' = c) := fun he => hc he.symm
      simp [pyLstrip, stripOneLeadingSlash, pyStartswith, List.isPrefixOf,
            List.dropWhile_cons, hc, hc2]

/-- C8 witness: the agreement at `/A/b`, which is not External. -/
theorem c8_lstrip_single_slash_witness :
    pyStartswith "/A/b" "//" = false ∧
    pyLstrip "/A/b" '/' = stripOneLeadingSlash "/A/b" :=
  ⟨by decide, c8_lstrip_single_slash "/A/b" (by decide)⟩

/-- One invocation of the CLI tool `list_zim_articles.py`: the argument
vector (index 0 is the program name) together with the outcomes of the
two fallible steps before command dispatch (`zim_file.exists()` and
`Archive(zim_path)`). -/
structure CliInvocation where
  argv : List String
  fileExists : Bool
  openOk : Bool

/-- Whether Python `int(s)` succeeds (a failure is an uncaught
`ValueError`); leading/trailing whitespace and a leading `+`, which
Python would accept, are not modelled — no claim exercises them. -/
def pyIntParses (s : String) : Bool := s.toInt?.isSome

/-- The command the CLI dispatches on (`sys.argv[2] if len > 2 else "info"`). -/
def cliCommand (c : CliInvocation) : String :=
  if 2 < c.argv.length then c.argv.getD 2 "" else "info"

/-- Models `main()` of `src/list_zim_articles.py` down to its process
exit status: 0 for a normal return, 1 for every `sys.exit(1)` and for an
uncaught `ValueError` from `int(...)`.  The printing and the library
calls behind `info`, `list`, `search` and `get` are assumed not to raise;
`dump` exits 1 when its entry load fails (`dump_entry_content`'s
`except` handler). -/
def cliMain (w : World) (c : CliInvocation) : Nat :=
  if c.argv.length < 2 then 1
  else if !c.fileExists then 1
  else if !c.openOk then 1
  else if cliCommand c = "info" then 0
  else if cliCommand c = "list" then
    if 4 < c.argv.length then (if pyIntParses (c.argv.getD 4 "") then 0 else 1) else 0
  else if cliCommand c = "search" then
    if c.argv.length < 4 then 1
    else if 4 < c.argv.length then
      (if pyIntParses (c.argv.getD 4 "") then 0 else 1)
    else 0
  else if cliCommand c = "get" then
    if c.argv.length < 4 then 1 else 0
  else if cliCommand c = "dump" then
    if c.argv.length < 4 then 1
    else if contentLoadFails w (c.argv.getD 3 "") then 1 else 0
  else 1

/-- Commands that require a further argument (`search`, `get`, `dump`). -/
def requiresPathArg (cmd : String) : Bool :=
  cmd = "search" || cmd = "get" || cmd = "dump"

/-- The exit-1 condition stated by the amended C9. -/
def cliExitOne (w : World) (c : CliInvocation) : Prop :=
  c.argv.length < 2 ∨ c.fileExists = false ∨ c.openOk = false ∨
  (requiresPathArg (cliCommand c) = true ∧ c.argv.length < 4) ∨
  ((cliCommand c = "list" ∨ cliCommand c = "search") ∧ 4 < c.argv.length ∧
    pyIntParses (c.argv.getD 4 "") = false) ∨
  (cliCommand c = "dump" ∧ 4 ≤ c.argv.length ∧
    contentLoadFails w (c.argv.getD 3 "") = true) ∨
  cliCommand c ∉ (["info", "list", "search", "get", "dump"] : List String)

/-- An invocation with an unknown command and no failure before dispatch. -/
def cliInvUnknown : CliInvocation :=
  { argv := ["prog", "x.zim", "frobnicate"], fileExists := true, openOk := true }

/-- C9 counterexample: the file exists, the archive opens and no required
argument is missing (an unknown command has none), yet the process exits
with status 1 — `main` runs `sys.exit(1)` on an unknown command name,
contradicting the claim that every such path exits 0. -/
theorem c9_exit_claim_counterexample :
    cliMain emptyWorld cliInvUnknown = 1 ∧
    cliInvUnknown.fileExists = true ∧ cliInvUnknown.openOk = true ∧
    ¬ (cliInvUnknown.argv.length < 2) := by decide

/-- C9 (amended): the CLI exits with status 1 exactly when fewer than two
arguments are given, the archive file is missing or fails to open, a
`search`/`get`/`dump` command lacks its required argument, an integer
argument fails to parse, the `dump` entry load fails, or the command name
is unknown; every other execution path exits 0 (errors inside `info`,
`list`, `search` and `get` are printed, not fatal). -/
theorem c9_exit_status (w : World) (c : CliInvocation) :
    (cliMain w c = 1 ↔ cliExitOne w c) ∧ (cliMain w c = 0 ∨ cliMain w c = 1) := by
  by_cases h2 : c.argv.length < 2
  · simp [cliMain, cliExitOne, h2]
  by_cases hf : c.fileExists = false
  · simp [cliMain, cliExitOne, h2, hf]
  by_cases ho : c.openOk = false
  · simp [cliMain, cliExitOne, h2, hf, ho]
  by_cases hc1 : cliCommand c = "info"
  · simp [cliMain, cliExitOne, requiresPathArg, h2, hf, ho, hc1]
  by_cases hc2 : cliCommand c = "list"
  · by_cases h4 : 4 < c.argv.length
    · by_cases hp : pyIntParses (c.argv.getD 4 "") = true
      · simp [cliMain, cliExitOne, requiresPathArg, h2, hf, ho, hc1, hc2, h4, hp]
      · simp [cliMain, cliExitOne, requiresPathArg, h2, hf, ho, hc1, hc2, h4, hp]
    · simp [cliMain, cliExitOne, requiresPathArg, h2, hf, ho, hc1, hc2, h4]
  by_cases hc3 : cliCommand c = "search"
  · by_cases h4m : c.argv.length < 4
    · simp [cliMain, cliExitOne, requiresPathArg, h2, hf, ho, hc1, hc2, hc3, h4m]
    · by_cases h4 : 4 < c.argv.length
      · by_cases hp : pyIntParses (c.argv.getD 4 "") = true
        · simp [cliMain, cliExitOne, requiresPathArg, h2, hf, ho, hc1, hc2, hc3,
                h4m, h4, hp]
        · simp [cliMain, cliExitOne, requiresPathArg, h2, hf, ho, hc1, hc2, hc3,
                h4m, h4, hp]
      · simp [cliMain, cliExitOne, requiresPathArg, h2, hf, ho, hc1, hc2, hc3, h4m, h4]
  by_cases hc4 : cliCommand c = "get"
  · by_cases h4m : c.argv.length < 4
    · simp [cliMain, cliExitOne, requiresPathArg, h2, hf, ho, hc1, hc2, hc3, hc4, h4m]
    · simp [cliMain, cliExitOne, requiresPathArg, h2, hf, ho, hc1, hc2, hc3, hc4, h4m]
  by_cases hc5 : cliCommand c = "dump"
  · by_cases h4m : c.argv.length < 4
    · simp [cliMain, cliExitOne, requiresPathArg, h2, hf, ho, hc1, hc2, hc3, hc4,
            hc5, h4m]
    · by_cases hd : contentLoadFails w (c.argv.getD 3 "") = true
      · simp [cliMain, cliExitOne, requiresPathArg, h2, hf, ho, hc1, hc2, hc3, hc4,
              hc5, h4m, hd]
        omega
      · simp [cliMain, cliExitOne, requiresPathArg, h2, hf, ho, hc1, hc2, hc3, hc4,
              hc5, h4m, hd]
        omega
  · simp [cliMain, cliExitOne, requiresPathArg, h2, hf, ho, hc1, hc2, hc3, hc4, hc5]
